import Mathlib

set_option maxRecDepth 8000

/-!
Verification of the WattAudit hybrid anomaly scoring engine.

This file embeds the scoring pipeline of the repository in Lean:
the feature builder and rule engine of `train_model.py`, the
evaluation labeling of `evaluate_and_log.py`, the score fusion of
both, the synthetic anomaly injector of `utils/synthetic.py`, the
grid evaluation loop of `tune_and_train.py`, and the artifact-absent
scoring behaviour of `backend/api/predict.py` and
`backend/api/customers.py`.

Machine reals are modelled by `ℚ`; the numpy global random generator
is modelled by an explicit state threaded through the injector, with
`np.random.seed` replacing the prior state by a pure function of the
seed.  The fitted sklearn models (IsolationForest, scaler) are
external artifacts and appear as abstract function parameters; the
claims settled here do not depend on their internals.
-/

namespace WattAudit

/-- One customer-month observation (columns of the input dataset). -/
structure BillingRecord where
  customer_id : String
  month : Nat
  consumption_kwh : ℚ
  billed_kwh : ℚ
  consumer_category : String
deriving DecidableEq

/-- Sort key order used by `df.sort_values(["customer_id", "month"])`
in `train_model.add_features`. -/
def rowLE (a b : BillingRecord) : Prop :=
  a.customer_id < b.customer_id ∨ (a.customer_id = b.customer_id ∧ a.month ≤ b.month)

instance : DecidableRel rowLE := fun a b => by
  unfold rowLE; infer_instance

instance : IsTotal BillingRecord rowLE where
  total a b := by
    unfold rowLE
    rcases lt_trichotomy a.customer_id b.customer_id with h | h | h
    · exact Or.inl (Or.inl h)
    · rcases Nat.le_total a.month b.month with hm | hm
      · exact Or.inl (Or.inr ⟨h, hm⟩)
      · exact Or.inr (Or.inr ⟨h.symm, hm⟩)
    · exact Or.inr (Or.inl h)

instance : IsTrans BillingRecord rowLE where
  trans a b c hab hbc := by
    unfold rowLE at hab hbc ⊢
    rcases hab with h1 | ⟨e1, m1⟩
    · rcases hbc with h2 | ⟨e2, m2⟩
      · exact Or.inl (h1.trans h2)
      · exact Or.inl (by rw [← e2]; exact h1)
    · rcases hbc with h2 | ⟨e2, m2⟩
      · exact Or.inl (by rw [e1]; exact h2)
      · exact Or.inr ⟨e1.trans e2, m1.trans m2⟩

/-- `df.sort_values(["customer_id", "month"])` (train_model.py line 23). -/
def sortRows (df : List BillingRecord) : List BillingRecord :=
  List.insertionSort rowLE df

/-- Walk the rows carrying the most recent consumption seen per customer:
the semantics of `df.groupby("customer_id")["consumption_kwh"].diff().fillna(0)`
(train_model.py line 27). -/
def monthlyChangesAux : List (String × ℚ) → List BillingRecord → List ℚ
  | _, [] => []
  | seen, r :: rest =>
    (match seen.lookup r.customer_id with
     | some prev => r.consumption_kwh - prev
     | none => 0) :: monthlyChangesAux ((r.customer_id, r.consumption_kwh) :: seen) rest

def monthlyChanges (rows : List BillingRecord) : List ℚ :=
  monthlyChangesAux [] rows

/-- Batch-wide mean consumption of a category:
`df.groupby("consumer_category")["consumption_kwh"].transform("mean")`
(train_model.py line 30). -/
def catMean (rows : List BillingRecord) (cat : String) : ℚ :=
  ((rows.filter (fun r => r.consumer_category == cat)).map (fun r => r.consumption_kwh)).sum
    / (((rows.filter (fun r => r.consumer_category == cat)).length : ℚ))

/-- A billing record together with the derived feature columns. -/
structure FeaturedRow where
  raw : BillingRecord
  ratio : ℚ
  monthly_change : ℚ
  cat_dev : ℚ
  billing_gap : ℚ
deriving DecidableEq

/-- Derived-column computation on an already sorted batch. -/
def featurize (s : List BillingRecord) : List FeaturedRow :=
  (s.zip (monthlyChanges s)).map fun p =>
    { raw := p.1,
      ratio := p.1.billed_kwh / (p.1.consumption_kwh + 1),
      monthly_change := p.2,
      cat_dev := p.1.consumption_kwh - catMean s p.1.consumer_category,
      billing_gap := p.1.consumption_kwh - p.1.billed_kwh }

/-- `add_features` of train_model.py (lines 22-36): sort by
(customer_id, month), then append ratio, monthly_change, cat_dev and
billing_gap, all recomputed from the raw columns. -/
def add_features (df : List BillingRecord) : List FeaturedRow :=
  featurize (sortRows df)

/-- The division `billed_kwh / (consumption_kwh + 1)` with the
division-by-zero case made explicit as a failure value. -/
def ratioChecked (consumption billed : ℚ) : Except String ℚ :=
  if consumption + 1 = 0 then Except.error "division by zero"
  else Except.ok (billed / (consumption + 1))

/-- sklearn `MinMaxScaler().fit_transform` on a single column:
`(x - min) / (max - min)`, with a zero range replaced by the scale 1
(sklearn `_handle_zeros_in_scale`), so a constant column maps to 0. -/
def minMaxScale : List ℚ → List ℚ
  | [] => []
  | h :: t =>
    if (h :: t).foldl max h - (h :: t).foldl min h = 0 then
      (h :: t).map (fun x => x - (h :: t).foldl min h)
    else
      (h :: t).map (fun x =>
        (x - (h :: t).foldl min h) / ((h :: t).foldl max h - (h :: t).foldl min h))

/-- `MinMaxScaler().fit_transform(np.abs(df[["lof_pred"]]))`
(train_model.py line 99, evaluate_and_log.py line 62). -/
def lofNorm (lof_pred : List Int) : List ℚ :=
  minMaxScale (lof_pred.map (fun p : Int => |(p : ℚ)|))

/-- `alpha * iso_norm + (1 - alpha) * lof_norm` columnwise
(train_model.py line 102, evaluate_and_log.py line 65). -/
def combinedScore (alpha : ℚ) (iso_norm lof_norm : List ℚ) : List ℚ :=
  List.zipWith (fun i l => alpha * i + (1 - alpha) * l) iso_norm lof_norm

/-- One window of the training persistence roll:
`rolling(2).apply(lambda x: (x == -1).sum()).ge(2)` (train_model.py
lines 118-125), on the window [prev, cur]. -/
def windowFlagTrain (prev cur : Int) : Int :=
  if ((if prev = -1 then 1 else 0) + (if cur = -1 then 1 else 0) : Nat) ≥ 2 then 1 else 0

/-- One window of the evaluation persistence roll:
`rolling(2).sum().ge(2)` (evaluate_and_log.py lines 80-87). -/
def windowFlagEval (prev cur : Int) : Int :=
  if prev + cur ≥ 2 then 1 else 0

/-- Size-2 rolling window over the month-ordered label column of one customer
column; the first row has no complete window and yields 0 (pandas
produces NaN there, and `NaN.ge(2)` is false). -/
def rollingFlagsAux (w : Int → Int → Int) : Int → List Int → List Int
  | _, [] => []
  | prev, cur :: rest => w prev cur :: rollingFlagsAux w cur rest

def rollingFlags (w : Int → Int → Int) : List Int → List Int
  | [] => []
  | h :: t => 0 :: rollingFlagsAux w h t

/-- `persistent_anomaly` per row of one customer, training variant
(labels use -1 = anomalous). -/
def persistentFlags (labels : List Int) : List Int :=
  rollingFlags windowFlagTrain labels

/-- `persistent_anomaly` per row of one customer, evaluation variant
(labels use 1 = anomalous, 0 = normal). -/
def persistentFlagsEval (labels : List Int) : List Int :=
  rollingFlags windowFlagEval labels

/-- The label sequence contains two consecutive months labelled `v`. -/
def hasConsecutivePair (v : Int) (l : List Int) : Prop :=
  ∃ pre post, l = pre ++ v :: v :: post

def sortQ (xs : List ℚ) : List ℚ :=
  List.insertionSort (fun a b => a ≤ b) xs

/-- Linear-interpolation quantile, the default of both
`pandas.Series.quantile` and `numpy.quantile`/`percentile`: at
fractional position `q * (n - 1)` of the sorted sample. -/
def quantileLinear (xs : List ℚ) (q : ℚ) : ℚ :=
  match sortQ xs with
  | [] => 0
  | h :: t =>
    let s := h :: t
    let pos := q * ((s.length : ℚ) - 1)
    let i := Int.toNat ⌊pos⌋
    let lo := s.getD i h
    let hi := s.getD (i + 1) lo
    lo + (pos - (i : ℚ)) * (hi - lo)

/-- Training/predict labeling (train_model.py lines 113-115,
predict.py lines 48-49): -1 below the `q` quantile of final_score,
else 1. -/
def trainAnomalyLabels (scores : List ℚ) (q : ℚ) : List Int :=
  scores.map (fun s => if s < quantileLinear scores q then -1 else 1)

/-- Evaluation labeling (evaluate_and_log.py lines 76-77):
`(final_score < threshold).astype(int)`, i.e. 1 below the quantile,
else 0. -/
def evalAnomalyLabels (scores : List ℚ) (q : ℚ) : List Int :=
  scores.map (fun s => if s < quantileLinear scores q then 1 else 0)

/-- `(df["ratio"] < under_cutoff).astype(int)`. -/
def underFlag (cutoff r : ℚ) : Nat :=
  if r < cutoff then 1 else 0

/-- `(df["ratio"] > over_cutoff).astype(int)`. -/
def overFlag (cutoff r : ℚ) : Nat :=
  if r > cutoff then 1 else 0

/-- `rule_flag = under_flag | over_flag` (train_model.py lines 105-107,
evaluate_and_log.py lines 68-70, tune_model.py lines 62-64). -/
def ruleFlag (under_cutoff over_cutoff r : ℚ) : Nat :=
  (underFlag under_cutoff r) ||| (overFlag over_cutoff r)

/-- `final_score = combined_score - rule_flag * 0.2` (train_model.py
line 110, evaluate_and_log.py line 73, tune_model.py line 67). -/
def trainFinalScore (combined : ℚ) (flag : Nat) : ℚ :=
  combined - (flag : ℚ) * (2 / 10)

/-- The grid calibration rule flag
`(val_df["ratio"] < params["rule_ratio_cutoff"]).astype(int)`
(tune_and_train.py line 75): only the under cutoff is tested. -/
def gridRuleFlag (cutoff r : ℚ) : Nat :=
  underFlag cutoff r

/-- The grid calibration final score (tune_and_train.py line 78):
`alpha * iso_val + (1 - alpha) * lof_val - rule_weight * rule_flag`. -/
def gridFinalScore (alpha isoV lofV rule_weight : ℚ) (flag : Nat) : ℚ :=
  alpha * isoV + (1 - alpha) * lofV - rule_weight * (flag : ℚ)

/-- The per-row feature payload of a `/predict` request. -/
structure PredictRecord where
  consumption_kwh : ℚ
  billed_kwh : ℚ
  ratio : ℚ
  monthly_change : ℚ
  cat_dev : ℚ
  billing_gap : ℚ
deriving DecidableEq

/-- An HTTP error response raised by a route handler. -/
structure ApiError where
  status_code : Nat
  detail : String
deriving DecidableEq

/-- The `/predict` route (predict.py lines 34-60).  The fitted model
and scaler artifacts are abstract; when either is absent the route
raises HTTP 500, otherwise it scores the scaled records and labels
them at the 5th percentile with -1 = anomalous, 1 = normal. -/
def predictRoute (model : Option (PredictRecord → ℚ))
    (scaler : Option (PredictRecord → PredictRecord))
    (records : List PredictRecord) : Except ApiError (List (ℚ × Int)) :=
  match model, scaler with
  | some m, some sc =>
    Except.ok
      ((records.map (fun r => m (sc r))).map
        (fun s =>
          (s, if s < quantileLinear (records.map (fun r => m (sc r))) (1 / 20)
              then -1 else 1)))
  | _, _ =>
    Except.error
      { status_code := 500,
        detail := "Model or scaler not available. Please run training (train_model.py) first." }

/-- The anomaly-score block of the customers routes (customers.py
lines 52-58 and 90-96): rows are scored through the model when it is
loaded, scaled first when the scaler is also loaded, and every row
receives the neutral score 0 when the model artifact is absent. -/
def customersAnomalyScores (model : Option (List ℚ → ℚ))
    (scaler : Option (List ℚ → List ℚ))
    (featureRows : List (List ℚ)) : List ℚ :=
  match model with
  | none => featureRows.map (fun _ => 0)
  | some m =>
    match scaler with
    | some sc => (featureRows.map sc).map m
    | none => featureRows.map m

/-- The grid evaluation loop of tune_and_train.py (lines 146-156):
each candidate is evaluated by a body that may fail; the loop body
has no exception handler, so a failure propagates. -/
def gridEvaluationLoop (ev : α → Except ε β) : List α → Except ε (List β)
  | [] => Except.ok []
  | p :: ps =>
    match ev p with
    | Except.error e => Except.error e
    | Except.ok r => (gridEvaluationLoop ev ps).map (fun rs => r :: rs)

/-- One step of the pseudo-random generator state.  the numpy global
Mersenne Twister is a deterministic function of its state; it is
modelled here by a concrete linear congruential step, which preserves
exactly the properties the claims depend on. -/
def rngNext (s : Nat) : Nat × Nat :=
  ((1103515245 * s + 12345) % 2147483648, (1103515245 * s + 12345) % 2147483648)

/-- `np.random.seed(seed)` (synthetic.py line 12): the global state
becomes a function of the seed alone. -/
def seedState (seed : Nat) : Nat :=
  seed % 2147483648

/-- Draw a natural number below `n`, returning the new state. -/
def drawNat (s n : Nat) : Nat × Nat :=
  ((rngNext s).1 % n, (rngNext s).2)

/-- Draw from `np.random.uniform(lo, hi)`, returning the new state. -/
def drawUniform (s : Nat) (lo hi : ℚ) : ℚ × Nat :=
  (lo + (hi - lo) * (((rngNext s).1 % 1000000 : Nat) : ℚ) / 1000000, (rngNext s).2)

/-- `np.random.choice(xs, size=k, replace=False)`: repeatedly draw an
index and remove the drawn element.  The injector only applies this
to deduplicated (`unique()`) lists, on which removing the drawn value
coincides with removing the drawn position. -/
def chooseNoReplace [DecidableEq α] : Nat → List α → Nat → List α × Nat
  | s, _, 0 => ([], s)
  | s, [], _ + 1 => ([], s)
  | s, x :: t, k + 1 =>
    let j := (drawNat s (x :: t).length).1
    let s1 := (drawNat s (x :: t).length).2
    let c := (x :: t).getD j x
    let rest := chooseNoReplace s1 ((x :: t).erase c) k
    (c :: rest.1, rest.2)

/-- A billing row carrying the injector flag column `is_synthetic`. -/
structure SRow extends BillingRecord where
  is_synthetic : Nat
deriving DecidableEq

/-- `df["is_synthetic"] = 0` (synthetic.py line 14). -/
def mkSyntheticRow (r : BillingRecord) : SRow :=
  { toBillingRecord := r, is_synthetic := 0 }

def dummyRecord : BillingRecord :=
  { customer_id := "", month := 0, consumption_kwh := 0, billed_kwh := 0,
    consumer_category := "" }

def dummySyn : SRow :=
  { toBillingRecord := dummyRecord, is_synthetic := 0 }

def dummyFeatured : FeaturedRow :=
  { raw := dummyRecord, ratio := 0, monthly_change := 0, cat_dev := 0, billing_gap := 0 }

/-- `df["customer_id"].unique()` (synthetic.py line 16). -/
def uniqueCustomers (df : List BillingRecord) : List String :=
  (df.map (fun r => r.customer_id)).dedup

/-- `max(1, int(n * frac))` (synthetic.py lines 18 and 27): note the
Python `int()` truncation. -/
def sampleCount (n : Nat) (frac : ℚ) : Nat :=
  max 1 (Int.toNat ⌊(n : ℚ) * frac⌋)

/-- Customer selection of the injector (synthetic.py lines 16-19). -/
def selectCustomers (df : List BillingRecord) (customer_frac : ℚ) (s : Nat) :
    List String × Nat :=
  chooseNoReplace s (uniqueCustomers df)
    (sampleCount (uniqueCustomers df).length customer_frac)

/-- `cust_rows["month"].unique()` for one customer (synthetic.py line 24). -/
def customerMonths (rows : List SRow) (cust : String) : List Nat :=
  ((rows.filter (fun r => r.customer_id == cust)).map (fun r => r.month)).dedup

/-- Month selection for one chosen customer (synthetic.py lines 24-28). -/
def selectMonths (rows : List SRow) (cust : String) (months_frac : ℚ) (s : Nat) :
    List Nat × Nat :=
  chooseNoReplace s (customerMonths rows cust)
    (sampleCount (customerMonths rows cust).length months_frac)

/-- The five corruption modes (synthetic.py lines 45-56), selected by
the drawn mode index in the order listed at lines 37-43. -/
def applyMode (mode : Nat) (s : Nat) (r : SRow) : SRow × Nat :=
  if mode = 0 then
    ({ r with billed_kwh := r.billed_kwh * (drawUniform s (1/20) (2/5)).1 },
     (drawUniform s (1/20) (2/5)).2)
  else if mode = 1 then
    ({ r with consumption_kwh := 0,
              billed_kwh := r.billed_kwh * (drawUniform s (6/5) (3/2)).1 },
     (drawUniform s (6/5) (3/2)).2)
  else if mode = 2 then
    ({ r with consumption_kwh := r.consumption_kwh * (drawUniform s 4 10).1 },
     (drawUniform s 4 10).2)
  else if mode = 3 then
    ({ r with consumption_kwh := r.consumption_kwh * (drawUniform s 0 (1/10)).1 },
     (drawUniform s 0 (1/10)).2)
  else
    ({ r with consumption_kwh := r.consumption_kwh * (drawUniform s (1/5) (2/5)).1,
              billed_kwh :=
                r.billed_kwh * (drawUniform ((drawUniform s (1/5) (2/5)).2) (6/5) (3/2)).1 },
     (drawUniform ((drawUniform s (1/5) (2/5)).2) (6/5) (3/2)).2)

/-- Apply one drawn mode to a row, then mark it `is_synthetic = 1`
(synthetic.py line 58). -/
def corruptRow (mode : Nat) (s : Nat) (r : SRow) : SRow × Nat :=
  ({ (applyMode mode s r).1 with is_synthetic := 1 }, (applyMode mode s r).2)

/-- Corrupt the first row of the given customer and month, in
dataframe order (`idx[0]` at synthetic.py line 34); when no row
matches, continue without drawing (line 33). -/
def corruptFirst (cust : String) (mon : Nat) (s : Nat) : List SRow → List SRow × Nat
  | [] => ([], s)
  | r :: rest =>
    if r.customer_id = cust ∧ r.month = mon then
      ((corruptRow (drawNat s 5).1 (drawNat s 5).2 r).1 :: rest,
       (corruptRow (drawNat s 5).1 (drawNat s 5).2 r).2)
    else
      (r :: (corruptFirst cust mon s rest).1, (corruptFirst cust mon s rest).2)

/-- The per-customer body of the injector loop (synthetic.py lines
21-58): skip a customer without months, otherwise choose months and
corrupt the first matching row of each chosen month. -/
def corruptCustomer (months_frac : ℚ) (cust : String) (rows : List SRow) (s : Nat) :
    List SRow × Nat :=
  if customerMonths rows cust = [] then (rows, s)
  else
    ((selectMonths rows cust months_frac s).1.foldl
      (fun acc mon => corruptFirst cust mon acc.2 acc.1)
      (rows, (selectMonths rows cust months_frac s).2))

/-- `inject_synthetic_anomalies_per_customer` with the ambient global
RNG state `g` made explicit; `np.random.seed(seed)` at synthetic.py
line 12 replaces `g` before any draw, so `g` is dead on arrival.  The
final RNG state is returned alongside the rows, as the numpy global
state persists after the call. -/
def injectS (g : Nat) (df : List BillingRecord) (customer_frac months_frac : ℚ)
    (seed : Nat) : List SRow × Nat :=
  (selectCustomers df customer_frac (seedState seed)).1.foldl
    (fun acc cust => corruptCustomer months_frac cust acc.1 acc.2)
    (df.map mkSyntheticRow, (selectCustomers df customer_frac (seedState seed)).2)

/-- `inject_synthetic_anomalies_per_customer(df, customer_frac,
months_frac, seed)` (synthetic.py lines 4-60). -/
def inject_synthetic_anomalies_per_customer (df : List BillingRecord)
    (customer_frac months_frac : ℚ) (seed : Nat) : List SRow :=
  (injectS 0 df customer_frac months_frac seed).1

/-- Written to the wording of the claim, for comparison with the code:
Python `round` (half-to-even rounding). -/
def specRound (q : ℚ) : ℤ :=
  if q - ⌊q⌋ < 1 / 2 then ⌊q⌋
  else if q - ⌊q⌋ > 1 / 2 then ⌊q⌋ + 1
  else if ⌊q⌋ % 2 = 0 then ⌊q⌋ else ⌊q⌋ + 1

/-- Written to the wording of the claim, for comparison with the code:
`max(1, round(n * frac))`. -/
def specSampleCount (n : Nat) (frac : ℚ) : Nat :=
  max 1 (Int.toNat (specRound ((n : ℚ) * frac)))

/-- Row-wise relation between the injector input and output rows:
each position is either untouched or has been marked synthetic. -/
def RowsPreserved (a b : List SRow) : Prop :=
  b.length = a.length ∧
    ∀ j : Nat, b.getD j dummySyn = a.getD j dummySyn ∨ (b.getD j dummySyn).is_synthetic = 1

/-- Concrete three-customer batch used by counterexamples and witnesses. -/
def df3 : List BillingRecord :=
  [{ customer_id := "a", month := 1, consumption_kwh := 100, billed_kwh := 100,
     consumer_category := "R" },
   { customer_id := "b", month := 1, consumption_kwh := 100, billed_kwh := 100,
     consumer_category := "R" },
   { customer_id := "c", month := 1, consumption_kwh := 100, billed_kwh := 100,
     consumer_category := "R" }]

/-- Concrete one-record batch with zero consumption, used by witnesses. -/
def dfW : List BillingRecord :=
  [{ customer_id := "a", month := 1, consumption_kwh := 0, billed_kwh := 5,
     consumer_category := "R" }]

/-- Concrete predict-request record used by counterexamples and witnesses. -/
def prW : PredictRecord :=
  { consumption_kwh := 500, billed_kwh := 500, ratio := 1, monthly_change := 0,
    cat_dev := 0, billing_gap := 0 }

lemma monthlyChangesAux_length (rows : List BillingRecord) :
    ∀ seen, (monthlyChangesAux seen rows).length = rows.length := by
  induction rows with
  | nil => intro seen; rfl
  | cons r rest ih => intro seen; simp [monthlyChangesAux, ih]

lemma monthlyChanges_length (rows : List BillingRecord) :
    (monthlyChanges rows).length = rows.length :=
  monthlyChangesAux_length rows []

lemma featurize_map_raw (s : List BillingRecord) :
    (featurize s).map FeaturedRow.raw = s := by
  unfold featurize
  rw [List.map_map]
  exact List.map_fst_zip s (monthlyChanges s) (le_of_eq (monthlyChanges_length s).symm)

lemma sortRows_idem (df : List BillingRecord) :
    sortRows (sortRows df) = sortRows df :=
  List.Sorted.insertionSort_eq (List.sorted_insertionSort rowLE df)

/-- Claim C10: the Feature Builder is idempotent — applying
`add_features` to the raw columns of its own output reproduces
exactly the same featured rows. -/
theorem C10_feature_builder_idempotent (df : List BillingRecord) :
    add_features ((add_features df).map FeaturedRow.raw) = add_features df := by
  unfold add_features
  rw [featurize_map_raw, sortRows_idem]

/-- Claim C9: for every record with non-negative consumption and
billing, the derived ratio `billed_kwh / (consumption_kwh + 1)` is
well defined (the division never hits a zero denominator, also at
zero consumption) and non-negative. -/
theorem C9_ratio_safe (df : List BillingRecord)
    (h : ∀ r ∈ df, 0 ≤ r.consumption_kwh ∧ 0 ≤ r.billed_kwh) :
    ∀ fr ∈ add_features df,
      ratioChecked fr.raw.consumption_kwh fr.raw.billed_kwh = Except.ok fr.ratio ∧
        0 ≤ fr.ratio := by
  intro fr hfr
  unfold add_features featurize at hfr
  obtain ⟨p, hp, hfr⟩ := List.mem_map.1 hfr
  have hmem : p.1 ∈ sortRows df := (List.of_mem_zip hp).1
  have hdf : p.1 ∈ df := (List.perm_insertionSort rowLE df).subset hmem
  obtain ⟨hc, hb⟩ := h p.1 hdf
  have hpos : 0 < p.1.consumption_kwh + 1 := by linarith
  subst hfr
  constructor
  · unfold ratioChecked
    rw [if_neg (ne_of_gt hpos)]
  · exact div_nonneg hb (le_of_lt hpos)

lemma headD_mem {α : Type} (l : List α) (d : α) (h : l ≠ []) : l.headD d ∈ l := by
  cases l with
  | nil => exact absurd rfl h
  | cons a t => exact List.mem_cons_self a t

lemma add_features_dfW_ne_nil : add_features dfW ≠ [] := by
  simp [add_features, featurize, sortRows, dfW, List.insertionSort, List.orderedInsert,
    monthlyChanges, monthlyChangesAux]

/-- Witness for C9 at a concrete zero-consumption record. -/
theorem C9_witness :
    ratioChecked ((add_features dfW).headD dummyFeatured).raw.consumption_kwh
        ((add_features dfW).headD dummyFeatured).raw.billed_kwh
      = Except.ok ((add_features dfW).headD dummyFeatured).ratio ∧
      0 ≤ ((add_features dfW).headD dummyFeatured).ratio :=
  C9_ratio_safe dfW
    (by intro r hr; simp [dfW] at hr; subst hr; norm_num)
    ((add_features dfW).headD dummyFeatured)
    (headD_mem _ _ add_features_dfW_ne_nil)

lemma foldl_min_const (n : Nat) (c : ℚ) : (List.replicate n c).foldl min c = c := by
  induction n with
  | zero => rfl
  | succ n ih => simpa [List.replicate, min_self] using ih

lemma foldl_max_const (n : Nat) (c : ℚ) : (List.replicate n c).foldl max c = c := by
  induction n with
  | zero => rfl
  | succ n ih => simpa [List.replicate, max_self] using ih

lemma minMaxScale_replicate (n : Nat) (c : ℚ) :
    minMaxScale (List.replicate n c) = List.replicate n 0 := by
  cases n with
  | zero => rfl
  | succ n =>
    show minMaxScale (c :: List.replicate n c) = _
    have hmax : (c :: List.replicate n c).foldl max c = c := by
      rw [List.foldl_cons, max_self]
      exact foldl_max_const n c
    have hmin : (c :: List.replicate n c).foldl min c = c := by
      rw [List.foldl_cons, min_self]
      exact foldl_min_const n c
    rw [minMaxScale, hmax, hmin]
    simp [List.map_replicate, List.replicate_succ]

lemma combinedScore_zero_right (alpha : ℚ) (iso : List ℚ) :
    combinedScore alpha iso (List.replicate iso.length 0) =
      iso.map (fun x => alpha * x) := by
  induction iso with
  | nil => rfl
  | cons h t ih =>
    show (alpha * h + (1 - alpha) * 0) :: combinedScore alpha t (List.replicate t.length 0)
        = (alpha * h) :: t.map (fun x => alpha * x)
    rw [ih]
    simp

/-- Claim C2: when the per-row predictions of the density model all lie in
-1, 1 (the `fit_predict` output), the normalized column `lof_norm`
is identically 0 — the absolute value makes the column the constant 1
and min-max scaling a constant column gives 0 — so the fused score is
`alpha * iso_norm` on every row and the density model contributes
nothing. -/
theorem C2_lof_contributes_nothing (lof_pred : List Int) (iso_norm : List ℚ) (alpha : ℚ)
    (hpm : ∀ p ∈ lof_pred, p = -1 ∨ p = 1) (hlen : lof_pred.length = iso_norm.length) :
    lofNorm lof_pred = List.replicate lof_pred.length 0 ∧
      combinedScore alpha iso_norm (lofNorm lof_pred) =
        iso_norm.map (fun x => alpha * x) := by
  have habs : lof_pred.map (fun p : Int => |(p : ℚ)|) = List.replicate lof_pred.length 1 := by
    refine List.eq_replicate_iff.2 ⟨by rw [List.length_map], ?_⟩
    intro b hb
    obtain ⟨p, hp, rfl⟩ := List.mem_map.1 hb
    rcases hpm p hp with h | h <;> subst h <;> norm_num
  have h0 : lofNorm lof_pred = List.replicate lof_pred.length 0 := by
    unfold lofNorm
    rw [habs, minMaxScale_replicate]
  refine ⟨h0, ?_⟩
  rw [h0, hlen]
  exact combinedScore_zero_right alpha iso_norm

/-- Witness for C2 at a concrete prediction column. -/
theorem C2_witness :
    lofNorm [-1, 1, 1] = List.replicate (List.length [-1, 1, 1]) 0 ∧
      combinedScore (7 / 10) [1/2, 1/3, 1/4] (lofNorm [-1, 1, 1]) =
        [1/2, 1/3, 1/4].map (fun x => 7 / 10 * x) :=
  C2_lof_contributes_nothing [-1, 1, 1] [1/2, 1/3, 1/4] (7 / 10)
    (by decide) (by decide)

lemma hasConsecutivePair_not_single (v a : Int) : ¬ hasConsecutivePair v [a] := by
  rintro ⟨pre, post, h⟩
  cases pre with
  | nil => simp at h
  | cons x xs => simp at h

lemma hasConsecutivePair_cons_cons (v a b : Int) (t : List Int) :
    hasConsecutivePair v (a :: b :: t) ↔
      (a = v ∧ b = v) ∨ hasConsecutivePair v (b :: t) := by
  constructor
  · rintro ⟨pre, post, h⟩
    cases pre with
    | nil =>
      simp only [List.nil_append, List.cons.injEq] at h
      exact Or.inl ⟨h.1, h.2.1⟩
    | cons x xs =>
      simp only [List.cons_append, List.cons.injEq] at h
      exact Or.inr ⟨xs, post, h.2⟩
  · rintro (⟨ha, hb⟩ | ⟨pre, post, h⟩)
    · exact ⟨[], t, by rw [ha, hb]; rfl⟩
    · exact ⟨a :: pre, post, by rw [List.cons_append, h]⟩

lemma windowFlagTrain_eq_one (p c : Int) :
    windowFlagTrain p c = 1 ↔ (p = -1 ∧ c = -1) := by
  unfold windowFlagTrain
  by_cases hp : p = -1 <;> by_cases hc : c = -1 <;> simp [hp, hc]

lemma windowFlagEval_eq_one (p c : Int) (hp : p = 0 ∨ p = 1) (hc : c = 0 ∨ c = 1) :
    windowFlagEval p c = 1 ↔ (p = 1 ∧ c = 1) := by
  unfold windowFlagEval
  rcases hp with hp | hp <;> rcases hc with hc | hc <;> subst hp <;> subst hc <;>
    norm_num

lemma rollingFlagsAux_mem_one (w : Int → Int → Int) (v : Int) (P : Int → Prop)
    (hw : ∀ p c, P p → P c → (w p c = 1 ↔ (p = v ∧ c = v))) :
    ∀ (rest : List Int) (prev : Int), P prev → (∀ x ∈ rest, P x) →
      ((1 : Int) ∈ rollingFlagsAux w prev rest ↔ hasConsecutivePair v (prev :: rest)) := by
  intro rest
  induction rest with
  | nil =>
    intro prev _ _
    simp only [rollingFlagsAux, List.not_mem_nil, false_iff]
    exact hasConsecutivePair_not_single v prev
  | cons cur r ih =>
    intro prev hprev hall
    have hcur : P cur := hall cur (List.mem_cons_self cur r)
    have hr : ∀ x ∈ r, P x := fun x hx => hall x (List.mem_cons_of_mem cur hx)
    simp only [rollingFlagsAux, List.mem_cons]
    rw [hasConsecutivePair_cons_cons]
    constructor
    · rintro (h1 | h2)
      · exact Or.inl ((hw prev cur hprev hcur).1 h1.symm)
      · exact Or.inr ((ih cur hcur hr).1 h2)
    · rintro (h1 | h2)
      · exact Or.inl ((hw prev cur hprev hcur).2 h1).symm
      · exact Or.inr ((ih cur hcur hr).2 h2)

/-- Claim C3: a customer is flagged persistent (some row of its
month-ordered series has `persistent_anomaly = 1`) exactly when the
label sequence contains two consecutive anomalous months; a customer
with a single record is never flagged.  The training variant marks
anomalies with -1, the evaluation variant with 1. -/
theorem C3_persistence_iff_consecutive :
    (∀ labels : List Int,
        (1 : Int) ∈ persistentFlags labels ↔ hasConsecutivePair (-1) labels) ∧
      (∀ l : Int, persistentFlags [l] = [0]) ∧
      (∀ labels : List Int, (∀ x ∈ labels, x = 0 ∨ x = 1) →
        ((1 : Int) ∈ persistentFlagsEval labels ↔ hasConsecutivePair 1 labels)) := by
  refine ⟨?_, fun l => rfl, ?_⟩
  · intro labels
    cases labels with
    | nil =>
      simp only [persistentFlags, rollingFlags, List.not_mem_nil, false_iff]
      rintro ⟨pre, post, h⟩
      cases pre <;> simp at h
    | cons h t =>
      simp only [persistentFlags, rollingFlags, List.mem_cons]
      have := rollingFlagsAux_mem_one windowFlagTrain (-1) (fun _ => True)
        (fun p c _ _ => windowFlagTrain_eq_one p c) t h trivial (fun x _ => trivial)
      rw [← this]
      constructor
      · rintro (h1 | h2)
        · exact absurd h1 (by norm_num)
        · exact h2
      · exact fun h2 => Or.inr h2
  · intro labels hall
    cases labels with
    | nil =>
      simp only [persistentFlagsEval, rollingFlags, List.not_mem_nil, false_iff]
      rintro ⟨pre, post, h⟩
      cases pre <;> simp at h
    | cons h t =>
      have hh : h = 0 ∨ h = 1 := hall h (List.mem_cons_self h t)
      have ht : ∀ x ∈ t, x = 0 ∨ x = 1 := fun x hx => hall x (List.mem_cons_of_mem h hx)
      simp only [persistentFlagsEval, rollingFlags, List.mem_cons]
      have := rollingFlagsAux_mem_one windowFlagEval 1 (fun x => x = 0 ∨ x = 1)
        windowFlagEval_eq_one t h hh ht
      rw [← this]
      constructor
      · rintro (h1 | h2)
        · exact absurd h1 (by norm_num)
        · exact h2
      · exact fun h2 => Or.inr h2

/-- Witness for C3: a customer with anomalies in two consecutive
months is flagged under both label conventions. -/
theorem C3_witness :
    ((1 : Int) ∈ persistentFlags [1, -1, -1]) ∧
      ((1 : Int) ∈ persistentFlagsEval [0, 1, 1]) :=
  ⟨(C3_persistence_iff_consecutive.1 [1, -1, -1]).mpr ⟨[1], [], rfl⟩,
   (C3_persistence_iff_consecutive.2.2 [0, 1, 1] (by decide)).mpr ⟨[0], [], rfl⟩⟩

/-- Claim C4, counterexample: on the concrete batch of final scores
[0, 1, 2, 3] at the default 5th percentile, the evaluation pass
labels the anomalous row 1 and the normal rows 0 — not the claimed
convention of -1 anomalous / 1 normal that the training pass uses. -/
theorem C4_counterexample :
    evalAnomalyLabels [0, 1, 2, 3] (1 / 20) = [1, 0, 0, 0] ∧
      trainAnomalyLabels [0, 1, 2, 3] (1 / 20) = [-1, 1, 1, 1] ∧
      ([1, 0, 0, 0] : List Int) ≠ [-1, 1, 1, 1] := by
  have hq : quantileLinear [0, 1, 2, 3] (1 / 20) = 3 / 20 := by
    have hs : sortQ [0, 1, 2, 3] = [0, 1, 2, 3] := by
      norm_num [sortQ, List.insertionSort, List.orderedInsert]
    have hf : (⌊(1 : ℚ) / 20 * ((4 : ℚ) - 1)⌋ : ℤ) = 0 := by
      rw [Int.floor_eq_zero_iff]
      constructor <;> norm_num
    rw [quantileLinear, hs]
    norm_num [hf, List.getD]
  refine ⟨?_, ?_, by decide⟩
  · rw [evalAnomalyLabels, hq]
    norm_num
  · rw [trainAnomalyLabels, hq]
    norm_num

/-- Claim C4 as amended: in every scoring pass the threshold is the
`q`-quantile of final_score and a row counts as anomalous exactly
when its score is strictly below it.  The training and predict passes
encode this as -1 anomalous / 1 normal; the evaluation pass encodes
the same rows as 1 anomalous / 0 normal — its label column is the
training column recoded, not the -1/1 convention. -/
theorem C4_amended (scores : List ℚ) (q : ℚ) :
    evalAnomalyLabels scores q =
        (trainAnomalyLabels scores q).map (fun l => if l = -1 then (1 : Int) else 0) ∧
      (∀ l ∈ trainAnomalyLabels scores q, l = -1 ∨ l = 1) ∧
      (∀ l ∈ evalAnomalyLabels scores q, l = 0 ∨ l = 1) := by
  refine ⟨?_, ?_, ?_⟩
  · unfold evalAnomalyLabels trainAnomalyLabels
    rw [List.map_map]
    apply List.map_congr_left
    intro s _
    by_cases h : s < quantileLinear scores q <;> simp [h]
  · intro l hl
    obtain ⟨s, _, rfl⟩ := List.mem_map.1 hl
    by_cases h : s < quantileLinear scores q <;> simp [h]
  · intro l hl
    obtain ⟨s, _, rfl⟩ := List.mem_map.1 hl
    by_cases h : s < quantileLinear scores q <;> simp [h]

/-- Witness for C4 at a concrete batch. -/
theorem C4_witness :
    evalAnomalyLabels [0, 1, 2, 3] (1 / 20) =
      (trainAnomalyLabels [0, 1, 2, 3] (1 / 20)).map
        (fun l => if l = -1 then (1 : Int) else 0) :=
  (C4_amended [0, 1, 2, 3] (1 / 20)).1

/-- Claim C5, counterexample: at ratio 2 (above the 1.3 over-cutoff)
the rule flag of the grid calibration is 0 — it only tests the under
cutoff — while the rule engine of training, evaluation and the
sequential calibration flags the row. -/
theorem C5_counterexample :
    gridRuleFlag (85 / 100) 2 = 0 ∧ ruleFlag (85 / 100) (13 / 10) 2 = 1 ∧
      (0 : Nat) ≠ 1 := by
  refine ⟨?_, ?_, by decide⟩
  · norm_num [gridRuleFlag, underFlag]
  · have hu : underFlag (85 / 100) 2 = 0 := by norm_num [underFlag]
    have ho : overFlag (13 / 10) 2 = 1 := by norm_num [overFlag]
    rw [ruleFlag, hu, ho]
    rfl

/-- Claim C5 as amended: in training, evaluation and the sequential
(optuna) calibration, `rule_flag = 1` iff the ratio is below the
under cutoff or above the over cutoff, and the final score subtracts
`rule_flag * 0.2`; in the grid calibration (`tune_and_train.py`) the
flag tests only `ratio < rule_ratio_cutoff` and the subtracted
penalty is the grid `rule_weight`, not 0.2. -/
theorem C5_amended (under_cutoff over_cutoff cutoff r c alpha isoV lofV w : ℚ) :
    (ruleFlag under_cutoff over_cutoff r = 1 ↔ (r < under_cutoff ∨ r > over_cutoff)) ∧
      (ruleFlag under_cutoff over_cutoff r = 0 ↔
        ¬(r < under_cutoff ∨ r > over_cutoff)) ∧
      (trainFinalScore c (ruleFlag under_cutoff over_cutoff r) =
        if r < under_cutoff ∨ r > over_cutoff then c - 2 / 10 else c) ∧
      (gridRuleFlag cutoff r = 1 ↔ r < cutoff) ∧
      (gridFinalScore alpha isoV lofV w (gridRuleFlag cutoff r) =
        if r < cutoff then alpha * isoV + (1 - alpha) * lofV - w
        else alpha * isoV + (1 - alpha) * lofV) := by
  unfold ruleFlag gridRuleFlag underFlag overFlag trainFinalScore gridFinalScore
  by_cases h1 : r < under_cutoff <;> by_cases h2 : r > over_cutoff <;>
    by_cases h3 : r < cutoff <;> simp [h1, h2, h3]

/-- Witness for C5 at a concrete over-billed ratio. -/
theorem C5_witness :
    ruleFlag (85 / 100) (13 / 10) 2 = 1 ↔
      ((2 : ℚ) < 85 / 100 ∨ (2 : ℚ) > 13 / 10) :=
  (C5_amended (85 / 100) (13 / 10) (85 / 100) 2 0 0 0 0 0).1

/-- Claim C1, counterexample: a `/predict` scoring call without the
persisted model and scaler raises an HTTP 500 error instead of
returning neutral scores. -/
theorem C1_counterexample :
    predictRoute none none [prW] =
        Except.error
          { status_code := 500,
            detail := "Model or scaler not available. Please run training (train_model.py) first." } ∧
      (predictRoute none none [prW]).isOk = false :=
  ⟨rfl, rfl⟩

/-- Claim C1 as amended: with the model artifact absent, the
customers scoring path returns the neutral `anomaly_score = 0` for
every row and never raises, while the `/predict` endpoint does not
return neutral scores but fails with an HTTP 500 error whenever the
model or the scaler artifact is missing. -/
theorem C1_amended (rows : List (List ℚ)) (records : List PredictRecord)
    (m : PredictRecord → ℚ) (sc : PredictRecord → PredictRecord)
    (msc : List ℚ → List ℚ) :
    customersAnomalyScores none none rows = rows.map (fun _ => 0) ∧
      customersAnomalyScores none (some msc) rows = rows.map (fun _ => 0) ∧
      (∀ s ∈ customersAnomalyScores none none rows, s = 0) ∧
      (predictRoute none none records).isOk = false ∧
      (predictRoute none (some sc) records).isOk = false ∧
      (predictRoute (some m) none records).isOk = false := by
  refine ⟨rfl, rfl, ?_, rfl, rfl, rfl⟩
  intro s hs
  unfold customersAnomalyScores at hs
  obtain ⟨_, _, rfl⟩ := List.mem_map.1 hs
  rfl

/-- Witness for C1 at a concrete batch and request. -/
theorem C1_witness :
    customersAnomalyScores none none [[1], [2, 3]] =
        [[1], [2, 3]].map (fun _ => 0) ∧
      (predictRoute none none [prW]).isOk = false :=
  ⟨(C1_amended [[1], [2, 3]] [prW] (fun _ => 0) id id).1,
   (C1_amended [[1], [2, 3]] [prW] (fun _ => 0) id id).2.2.2.1⟩

/-- Claim C7, counterexample: a failing grid candidate aborts the
whole search — the loop result is the error of the candidate, and the
remaining candidate is never reflected in any result list, instead of
the claimed skip-and-continue behaviour. -/
theorem C7_counterexample :
    gridEvaluationLoop
        (fun n : Nat => if n = 0 then Except.error "invalid combination" else Except.ok n)
        [1, 0, 2] = Except.error "invalid combination" ∧
      (gridEvaluationLoop
        (fun n : Nat => if n = 0 then Except.error "invalid combination" else Except.ok n)
        [1, 0, 2]).isOk = false := by
  constructor <;> rfl

/-- Claim C7 as amended: the grid evaluation loop has no per-candidate
exception handling, so the first candidate whose evaluation fails
propagates its error and aborts the remaining search (the optuna
study of `tune_model.py` likewise runs with the default empty `catch`
tuple). -/
theorem C7_amended {α ε β : Type} (ev : α → Except ε β) (p : α) (e : ε)
    (ps qs : List α) (hp : ev p = Except.error e)
    (hps : ∀ x ∈ ps, ∃ r, ev x = Except.ok r) :
    gridEvaluationLoop ev (ps ++ p :: qs) = Except.error e := by
  induction ps with
  | nil => simp [gridEvaluationLoop, hp]
  | cons x ps ih =>
    obtain ⟨r, hr⟩ := hps x (List.mem_cons_self x ps)
    have hrec := ih (fun y hy => hps y (List.mem_cons_of_mem x hy))
    rw [List.cons_append]
    show (match ev x with
      | Except.error e => Except.error e
      | Except.ok r => (gridEvaluationLoop ev (ps ++ p :: qs)).map (fun rs => r :: rs)) =
        Except.error e
    rw [hr, hrec]
    rfl

/-- Witness for C7 on a concrete three-candidate grid whose middle
candidate fails. -/
theorem C7_witness :
    gridEvaluationLoop
        (fun n : Nat => if n = 0 then Except.error "invalid combination" else Except.ok n)
        ([1] ++ 0 :: [2]) = Except.error "invalid combination" :=
  C7_amended (fun n : Nat => if n = 0 then Except.error "invalid combination" else Except.ok n)
    0 "invalid combination" [1] [2] (by norm_num)
    (by
      intro x hx
      simp only [List.mem_singleton] at hx
      subst hx
      exact ⟨1, by norm_num⟩)

lemma getD_cons_mem {α : Type} (x : α) (t : List α) (j : Nat) :
    (x :: t).getD j x ∈ x :: t := by
  by_cases h : j < (x :: t).length
  · rw [List.getD_eq_getElem?_getD, List.getElem?_eq_getElem h, Option.getD_some]
    exact List.getElem_mem h
  · push_neg at h
    rw [List.getD_eq_getElem?_getD, List.getElem?_eq_none h, Option.getD_none]
    exact List.mem_cons_self x t

lemma chooseNoReplace_fst_length {α : Type} [DecidableEq α] :
    ∀ (k s : Nat) (xs : List α), (chooseNoReplace s xs k).1.length = min k xs.length := by
  intro k
  induction k with
  | zero => intro s xs; simp [chooseNoReplace]
  | succ k ih =>
    intro s xs
    cases xs with
    | nil => simp [chooseNoReplace]
    | cons x t =>
      have hmem := getD_cons_mem x t (drawNat s (x :: t).length).1
      have hlen := List.length_erase_of_mem hmem
      simp only [List.length_cons] at hlen
      simp only [chooseNoReplace, List.length_cons]
      rw [ih]
      rw [hlen]
      omega

lemma chooseNoReplace_fst_subset {α : Type} [DecidableEq α] :
    ∀ (k s : Nat) (xs : List α), (chooseNoReplace s xs k).1 ⊆ xs := by
  intro k
  induction k with
  | zero => intro s xs; simp [chooseNoReplace]
  | succ k ih =>
    intro s xs
    cases xs with
    | nil => simp [chooseNoReplace]
    | cons x t =>
      intro a ha
      simp only [chooseNoReplace, List.mem_cons] at ha
      cases ha with
      | inl h => rw [h]; exact getD_cons_mem x t _
      | inr h => exact List.erase_subset _ _ (ih _ _ h)

lemma chooseNoReplace_fst_nodup {α : Type} [DecidableEq α] :
    ∀ (k s : Nat) (xs : List α), xs.Nodup → (chooseNoReplace s xs k).1.Nodup := by
  intro k
  induction k with
  | zero => intro s xs _; simp [chooseNoReplace]
  | succ k ih =>
    intro s xs h
    cases xs with
    | nil => simp [chooseNoReplace]
    | cons x t =>
      simp only [chooseNoReplace]
      refine List.nodup_cons.2 ⟨fun hc => ?_, ih _ _ (h.erase _)⟩
      exact h.not_mem_erase (chooseNoReplace_fst_subset k _ _ hc)

lemma sampleCount_le (n : Nat) (frac : ℚ) (hn : 1 ≤ n) (hf : frac ≤ 1) :
    sampleCount n frac ≤ n := by
  unfold sampleCount
  have h0 : (0 : ℚ) ≤ (n : ℚ) := by positivity
  have h1 : (n : ℚ) * frac ≤ (n : ℚ) := mul_le_of_le_one_right h0 hf
  have h2 : ⌊(n : ℚ) * frac⌋ ≤ (n : ℤ) := by
    calc ⌊(n : ℚ) * frac⌋ ≤ ⌊(n : ℚ)⌋ := Int.floor_le_floor h1
    _ = (n : ℤ) := Int.floor_natCast n
  have h3 : (⌊(n : ℚ) * frac⌋).toNat ≤ n := Int.toNat_le.2 h2
  omega

lemma uniqueCustomers_ne_nil (df : List BillingRecord) (h : df ≠ []) :
    uniqueCustomers df ≠ [] := by
  unfold uniqueCustomers
  rw [Ne, List.dedup_eq_nil, List.map_eq_nil_iff]
  exact h

lemma uniqueCustomers_nodup (df : List BillingRecord) : (uniqueCustomers df).Nodup :=
  List.nodup_dedup _

lemma customerMonths_nodup (rows : List SRow) (cust : String) :
    (customerMonths rows cust).Nodup :=
  List.nodup_dedup _

lemma rowsPreserved_refl (a : List SRow) : RowsPreserved a a :=
  ⟨rfl, fun _ => Or.inl rfl⟩

lemma rowsPreserved_trans {a b c : List SRow} (h1 : RowsPreserved a b)
    (h2 : RowsPreserved b c) : RowsPreserved a c := by
  refine ⟨h2.1.trans h1.1, fun j => ?_⟩
  rcases h2.2 j with e | f
  · rw [e]; exact h1.2 j
  · exact Or.inr f

lemma corruptRow_is_synthetic (mode s : Nat) (r : SRow) :
    (corruptRow mode s r).1.is_synthetic = 1 := rfl

lemma corruptRow_fields (mode s : Nat) (r : SRow) :
    (corruptRow mode s r).1.customer_id = r.customer_id ∧
      (corruptRow mode s r).1.month = r.month ∧
      (corruptRow mode s r).1.consumer_category = r.consumer_category := by
  unfold corruptRow applyMode
  split_ifs <;> exact ⟨rfl, rfl, rfl⟩

lemma corruptFirst_preserved (cust : String) (mon : Nat) :
    ∀ (rows : List SRow) (s : Nat), RowsPreserved rows (corruptFirst cust mon s rows).1 := by
  intro rows
  induction rows with
  | nil => intro s; exact rowsPreserved_refl []
  | cons r rest ih =>
    intro s
    by_cases h : r.customer_id = cust ∧ r.month = mon
    · constructor
      · simp [corruptFirst, h]
      · intro j
        cases j with
        | zero =>
          right
          simp [corruptFirst, h, corruptRow_is_synthetic]
        | succ j =>
          left
          simp [corruptFirst, h]
    · have hrec := ih s
      constructor
      · simp [corruptFirst, h, hrec.1]
      · intro j
        cases j with
        | zero => left; simp [corruptFirst, h]
        | succ j =>
          have hj := hrec.2 j
          simpa [corruptFirst, h] using hj

lemma foldl_preserved {γ : Type} (step : γ → List SRow → Nat → List SRow × Nat)
    (hstep : ∀ x rows s, RowsPreserved rows (step x rows s).1) :
    ∀ (l : List γ) (rows : List SRow) (s : Nat),
      RowsPreserved rows (l.foldl (fun acc x => step x acc.1 acc.2) (rows, s)).1 := by
  intro l
  induction l with
  | nil => intro rows s; exact rowsPreserved_refl rows
  | cons x l ih =>
    intro rows s
    rw [List.foldl_cons]
    have h1 := hstep x rows s
    have h2 := ih (step x rows s).1 (step x rows s).2
    rw [Prod.mk.eta] at h2
    exact rowsPreserved_trans h1 h2

lemma corruptCustomer_preserved (mfrac : ℚ) (cust : String) (rows : List SRow) (s : Nat) :
    RowsPreserved rows (corruptCustomer mfrac cust rows s).1 := by
  unfold corruptCustomer
  split_ifs with h
  · exact rowsPreserved_refl rows
  · exact foldl_preserved (fun mon rows s => corruptFirst cust mon s rows)
      (fun mon rows s => corruptFirst_preserved cust mon rows s)
      (selectMonths rows cust mfrac s).1 rows (selectMonths rows cust mfrac s).2

lemma injectS_preserved (g : Nat) (df : List BillingRecord) (cf mf : ℚ) (seed : Nat) :
    RowsPreserved (df.map mkSyntheticRow) (injectS g df cf mf seed).1 := by
  unfold injectS
  exact foldl_preserved (fun cust rows s => corruptCustomer mf cust rows s)
    (fun cust rows s => corruptCustomer_preserved mf cust rows s)
    (selectCustomers df cf (seedState seed)).1 (df.map mkSyntheticRow)
    (selectCustomers df cf (seedState seed)).2

lemma getD_map_mk :
    ∀ (df : List BillingRecord) (i : Nat), i < df.length →
      (df.map mkSyntheticRow).getD i dummySyn = mkSyntheticRow (df.getD i dummyRecord) := by
  intro df
  induction df with
  | nil => intro i hi; simp at hi
  | cons r rest ih =>
    intro i hi
    cases i with
    | zero => rfl
    | succ i => exact ih i (by simpa using hi)

lemma corruptFirst_no_match (cust : String) (mon s : Nat) :
    ∀ rows : List SRow, (∀ x ∈ rows, ¬(x.customer_id = cust ∧ x.month = mon)) →
      corruptFirst cust mon s rows = (rows, s) := by
  intro rows
  induction rows with
  | nil => intro _; rfl
  | cons r rest ih =>
    intro hall
    have hx := hall r (List.mem_cons_self r rest)
    have hrec := ih (fun y hy => hall y (List.mem_cons_of_mem r hy))
    simp [corruptFirst, hx, hrec]

lemma corruptFirst_first_match (cust : String) (mon s : Nat) :
    ∀ (pre : List SRow) (post : List SRow) (r : SRow),
      (∀ x ∈ pre, ¬(x.customer_id = cust ∧ x.month = mon)) →
      r.customer_id = cust ∧ r.month = mon →
      (corruptFirst cust mon s (pre ++ r :: post)).1
        = pre ++ (corruptRow (drawNat s 5).1 (drawNat s 5).2 r).1 :: post := by
  intro pre
  induction pre with
  | nil => intro post r _ hr; simp [corruptFirst, hr]
  | cons x pre ih =>
    intro post r hpre hr
    have hx := hpre x (List.mem_cons_self x pre)
    have hrec := ih post r (fun y hy => hpre y (List.mem_cons_of_mem x hy)) hr
    simp [corruptFirst, hx, hrec]

lemma mem_getD {α : Type} (l : List α) (r d : α) (h : r ∈ l) :
    ∃ i, i < l.length ∧ l.getD i d = r := by
  obtain ⟨i, hi, heq⟩ := List.mem_iff_getElem.1 h
  refine ⟨i, hi, ?_⟩
  rw [List.getD_eq_getElem?_getD, List.getElem?_eq_getElem hi, Option.getD_some]
  exact heq

/-- Claim C8: the injector is deterministic in the seed.  Seeding
replaces the ambient global RNG state, so two calls on the same batch
with the same seed — whatever global state each starts from, in
particular a second run started from the state the first one left
behind — produce identical outputs: the same rows corrupted, with the
same drawn mode and multipliers (full row equality). -/
theorem C8_injector_determinism (g1 g2 : Nat) (df : List BillingRecord)
    (customer_frac months_frac : ℚ) (seed : Nat) :
    (injectS g1 df customer_frac months_frac seed).1
        = (injectS g2 df customer_frac months_frac seed).1 ∧
      (injectS (injectS g1 df customer_frac months_frac seed).2 df customer_frac
          months_frac seed).1 = (injectS g1 df customer_frac months_frac seed).1 ∧
      (injectS g1 df customer_frac months_frac seed).1
        = inject_synthetic_anomalies_per_customer df customer_frac months_frac seed :=
  ⟨rfl, rfl, rfl⟩

/-- Claim C6, counterexample: on a batch of 3 distinct customers with
`customer_frac = 1/2`, the code selects `max(1, int(3 * 0.5)) = 1`
customer — Python `int()` truncates 1.5 — while the claimed
`max(1, round(3 * 0.5))` is 2. -/
theorem C6_counterexample :
    (selectCustomers df3 (1 / 2) (seedState 42)).1.length = 1 ∧
      specSampleCount (uniqueCustomers df3).length (1 / 2) = 2 ∧ (1 : Nat) ≠ 2 := by
  have hu : uniqueCustomers df3 = ["a", "b", "c"] := by decide
  have hlen3 : (uniqueCustomers df3).length = 3 := by rw [hu]; rfl
  have hf : (⌊(3 : ℚ) * (1 / 2)⌋ : ℤ) = 1 := by
    rw [Int.floor_eq_iff] <;> norm_num
  have hsc : sampleCount 3 (1 / 2) = 1 := by
    unfold sampleCount
    rw [show ((3 : Nat) : ℚ) = (3 : ℚ) by norm_num, hf]
    rfl
  refine ⟨?_, ?_, by decide⟩
  · unfold selectCustomers
    rw [chooseNoReplace_fst_length, hlen3, hsc]
    omega
  · rw [hlen3]
    unfold specSampleCount specRound
    rw [show ((3 : Nat) : ℚ) = (3 : ℚ) by norm_num, hf]
    rw [if_neg (by norm_num), if_neg (by norm_num), if_neg (by norm_num)]
    rfl

/-- Claim C6 as amended (Python `int()` truncation in place of the
claimed rounding): for a nonempty batch the injector selects exactly
`max(1, ⌊n_customers * customer_frac⌋)` distinct customers without
replacement, and for any customer with a nonempty month list exactly
`max(1, ⌊n_months * months_frac⌋)` of its months without replacement;
the output batch has the same length as the input, every row carries
`is_synthetic ∈ {0, 1}`, every row still flagged 0 is the untouched
input row, each corruption applies one drawn mode in place, marking
the row and leaving its identity columns unchanged, exactly one row —
the first matching one — is corrupted per selected (customer, month),
and a selected month with no matching row is skipped without
consuming a draw. -/
theorem C6_amended (df : List BillingRecord) (customer_frac months_frac : ℚ) (seed : Nat)
    (hdf : df ≠ []) (hcf : customer_frac ≤ 1) (hmf : months_frac ≤ 1) :
    ((selectCustomers df customer_frac (seedState seed)).1.length
        = sampleCount (uniqueCustomers df).length customer_frac ∧
      (selectCustomers df customer_frac (seedState seed)).1.Nodup) ∧
      (∀ (rows : List SRow) (cust : String) (s : Nat), customerMonths rows cust ≠ [] →
        (selectMonths rows cust months_frac s).1.length
            = sampleCount (customerMonths rows cust).length months_frac ∧
          (selectMonths rows cust months_frac s).1.Nodup) ∧
      (inject_synthetic_anomalies_per_customer df customer_frac months_frac seed).length
          = df.length ∧
      (∀ r ∈ inject_synthetic_anomalies_per_customer df customer_frac months_frac seed,
        r.is_synthetic = 0 ∨ r.is_synthetic = 1) ∧
      (∀ i, i < df.length →
        ((inject_synthetic_anomalies_per_customer df customer_frac months_frac
            seed).getD i dummySyn).is_synthetic = 0 →
        (inject_synthetic_anomalies_per_customer df customer_frac months_frac
            seed).getD i dummySyn = mkSyntheticRow (df.getD i dummyRecord)) ∧
      (∀ (mode s : Nat) (r : SRow),
        (corruptRow mode s r).1.is_synthetic = 1 ∧
          (corruptRow mode s r).1.customer_id = r.customer_id ∧
          (corruptRow mode s r).1.month = r.month ∧
          (corruptRow mode s r).1.consumer_category = r.consumer_category) ∧
      (∀ (cust : String) (mon s : Nat) (pre post : List SRow) (r : SRow),
        (∀ x ∈ pre, ¬(x.customer_id = cust ∧ x.month = mon)) →
        r.customer_id = cust ∧ r.month = mon →
        (corruptFirst cust mon s (pre ++ r :: post)).1
          = pre ++ (corruptRow (drawNat s 5).1 (drawNat s 5).2 r).1 :: post) ∧
      (∀ (cust : String) (mon s : Nat) (rows : List SRow),
        (∀ x ∈ rows, ¬(x.customer_id = cust ∧ x.month = mon)) →
        corruptFirst cust mon s rows = (rows, s)) := by
  have hpres := injectS_preserved 0 df customer_frac months_frac seed
  have houtlen : (inject_synthetic_anomalies_per_customer df customer_frac months_frac
      seed).length = df.length := by
    unfold inject_synthetic_anomalies_per_customer
    rw [hpres.1, List.length_map]
  refine ⟨⟨?_, ?_⟩, ?_, houtlen, ?_, ?_, ?_, ?_, ?_⟩
  · unfold selectCustomers
    rw [chooseNoReplace_fst_length]
    have hn1 : 1 ≤ (uniqueCustomers df).length :=
      List.length_pos.2 (uniqueCustomers_ne_nil df hdf)
    exact min_eq_left (sampleCount_le _ _ hn1 hcf)
  · exact chooseNoReplace_fst_nodup _ _ _ (uniqueCustomers_nodup df)
  · intro rows cust s hne
    constructor
    · unfold selectMonths
      rw [chooseNoReplace_fst_length]
      have hn1 : 1 ≤ (customerMonths rows cust).length := List.length_pos.2 hne
      exact min_eq_left (sampleCount_le _ _ hn1 hmf)
    · exact chooseNoReplace_fst_nodup _ _ _ (customerMonths_nodup rows cust)
  · intro r hr
    obtain ⟨i, hi, hgd⟩ := mem_getD _ r dummySyn hr
    rw [houtlen] at hi
    rcases hpres.2 i with e | f
    · left
      rw [← hgd]
      show ((injectS 0 df customer_frac months_frac seed).1.getD i dummySyn).is_synthetic = 0
      rw [e, getD_map_mk df i hi]
      rfl
    · right
      rw [← hgd]
      exact f
  · intro i hi hflag
    rcases hpres.2 i with e | f
    · show (injectS 0 df customer_frac months_frac seed).1.getD i dummySyn = _
      rw [e, getD_map_mk df i hi]
    · exact absurd f (by rw [show ((inject_synthetic_anomalies_per_customer df
        customer_frac months_frac seed).getD i dummySyn).is_synthetic
          = ((injectS 0 df customer_frac months_frac seed).1.getD i dummySyn).is_synthetic
        from rfl] at hflag; omega)
  · intro mode s r
    exact ⟨corruptRow_is_synthetic mode s r, corruptRow_fields mode s r⟩
  · intro cust mon s pre post r hpre hr
    exact corruptFirst_first_match cust mon s pre post r hpre hr
  · intro cust mon s rows hall
    exact corruptFirst_no_match cust mon s rows hall

/-- Witness for C6 on the concrete three-customer batch. -/
theorem C6_witness :
    (selectCustomers df3 (1 / 2) (seedState 42)).1.length
        = sampleCount (uniqueCustomers df3).length (1 / 2) ∧
      (inject_synthetic_anomalies_per_customer df3 (1 / 2) (1 / 2) 42).length
        = df3.length :=
  ⟨(C6_amended df3 (1 / 2) (1 / 2) 42 (by simp [df3]) (by norm_num) (by norm_num)).1.1,
   (C6_amended df3 (1 / 2) (1 / 2) 42 (by simp [df3]) (by norm_num) (by norm_num)).2.2.1⟩

end WattAudit
